import Mathlib

/-!
Verification of `dbn_to_parquet.py` (NimbleMarkets/dbn-go).

The program is a thin CLI loop:

    def main():
        if len(sys.argv) < 2:
            sys.stderr.write("Usage: dbn_to_parquet.py <filename>\n")
            sys.exit(1)
        for filename in sys.argv[1:]:
            sys.stderr.write("Processing " + filename + "\n")
            dbn_data = db.DBNStore.from_file(filename)
            pqfilename = filename + ".parquet"
            dbn_data.to_parquet(pqfilename)
            sys.stderr.write("Created " + pqfilename + "\n")

We embed it shallowly: the two external capabilities (`DBNStore.from_file`
and `DBNStore.to_parquet`) are parameters of the model (an `Env`), and
running `main` produces a `Trace`: the ordered list of observable events
(stderr writes, load calls, export calls), the list of files created (in
creation order, with their contents), and the process outcome.
-/

namespace DbnToParquet

/-- An observable event of one program run: a write to standard error, an
invocation of the external load capability with a filename, or an
invocation of the external export capability with an output path. -/
inductive Event : Type where
  | stderr (s : String)
  | loadCall (filename : String)
  | exportCall (path : String)
  deriving DecidableEq, Repr

/-- How the process terminates: normally (exit status 0), via the explicit
`sys.exit(1)` on the usage error, or by an uncaught exception `e` raised
while processing `filename` (Python exits with status 1 in that case).
The exception value is carried unmodified. -/
inductive Outcome (Err : Type) : Type where
  | success
  | usageError
  | uncaught (filename : String) (e : Err)
  deriving DecidableEq, Repr

/-- Numeric exit status of an outcome: 0 on success, 1 for the usage error
(`sys.exit(1)`) and 1 for an uncaught exception (Python's default). -/
def Outcome.exitCode {Err : Type} : Outcome Err → Nat
  | .success => 0
  | .usageError => 1
  | .uncaught _ _ => 1

/-- The full observable behaviour of one run: events in order, files
created (path and content, in creation order), and the outcome. -/
structure Trace (Content Err : Type) : Type where
  events : List Event
  files : List (String × Content)
  outcome : Outcome Err
  deriving DecidableEq, Repr

/-- The two external capabilities the program delegates to, treated as
opaque functions: `fromFile` models `db.DBNStore.from_file` (returning an
opaque store or failing), `toParquet` models `DBNStore.to_parquet`
(returning the content written at the given path, or failing). -/
structure Env (Store Content Err : Type) : Type where
  fromFile : String → Except Err Store
  toParquet : Store → String → Except Err Content

variable {Store Content Err : Type}

/-- The `for filename in sys.argv[1:]` loop of `main`, one iteration per
filename: write the Processing line, call the load capability (aborting
with the uncaught error if it fails), derive `pqfilename` by appending
".parquet", call the export capability with it (aborting if it fails,
recording the created file if it succeeds), write the Created line, and
continue with the remaining filenames. -/
def processLoop (env : Env Store Content Err) : List String → Trace Content Err
  | [] => ⟨[], [], .success⟩
  | filename :: rest =>
    let ev0 := Event.stderr ("Processing " ++ filename ++ "\n")
    match env.fromFile filename with
    | .error e => ⟨[ev0, .loadCall filename], [], .uncaught filename e⟩
    | .ok dbn_data =>
      let pqfilename := filename ++ ".parquet"
      match env.toParquet dbn_data pqfilename with
      | .error e =>
          ⟨[ev0, .loadCall filename, .exportCall pqfilename], [], .uncaught filename e⟩
      | .ok content =>
          let t := processLoop env rest
          ⟨[ev0, .loadCall filename, .exportCall pqfilename,
             Event.stderr ("Created " ++ pqfilename ++ "\n")] ++ t.events,
           (pqfilename, content) :: t.files, t.outcome⟩

/-- `main`: `argv` is the full Python `sys.argv` (program name first).
If fewer than two elements, write the usage line and exit with status 1;
otherwise run the loop over `sys.argv[1:]`. -/
def main (env : Env Store Content Err) (argv : List String) : Trace Content Err :=
  if argv.length < 2 then
    ⟨[Event.stderr "Usage: dbn_to_parquet.py <filename>\n"], [], .usageError⟩
  else
    processLoop env (argv.drop 1)

/-- The strings written to standard error, in order. -/
def stderrLines (evs : List Event) : List String :=
  evs.filterMap fun e =>
    match e with
    | .stderr s => some s
    | _ => none

/-- The filenames passed to the external load capability, in order. -/
def loadCalls (evs : List Event) : List String :=
  evs.filterMap fun e =>
    match e with
    | .loadCall f => some f
    | _ => none

/-- The output paths passed to the external export capability, in order. -/
def exportCalls (evs : List Event) : List String :=
  evs.filterMap fun e =>
    match e with
    | .exportCall p => some p
    | _ => none

/-- The combined load-then-export action for one filename, as the loop body
performs it: load `f`, then export to `f ++ ".parquet"`. -/
def convertFile (env : Env Store Content Err) (f : String) : Except Err Content :=
  match env.fromFile f with
  | .error e => .error e
  | .ok s => env.toParquet s (f ++ ".parquet")

/-- Whether converting `f` succeeds end to end under `env`. -/
def convertOk (env : Env Store Content Err) (f : String) : Bool :=
  match convertFile env f with
  | .ok _ => true
  | .error _ => false

/-- The four events one successful loop iteration for `f` emits, in order. -/
def okEvents (f : String) : List Event :=
  [.stderr ("Processing " ++ f ++ "\n"), .loadCall f,
   .exportCall (f ++ ".parquet"),
   .stderr ("Created " ++ (f ++ ".parquet") ++ "\n")]

/-- The events a failing loop iteration for `f` emits: the Processing line
and the load call always happen; the export call happens only when the
load succeeded and the export itself failed. (Empty in the unreachable
all-success case.) -/
def badEvents (env : Env Store Content Err) (f : String) : List Event :=
  match env.fromFile f with
  | .error _ => [.stderr ("Processing " ++ f ++ "\n"), .loadCall f]
  | .ok s =>
    match env.toParquet s (f ++ ".parquet") with
    | .error _ =>
        [.stderr ("Processing " ++ f ++ "\n"), .loadCall f,
         .exportCall (f ++ ".parquet")]
    | .ok _ => []

/-- The file (path and content) created for `f`, when conversion succeeds;
empty when it fails. -/
def outFiles (env : Env Store Content Err) (f : String) : List (String × Content) :=
  match convertFile env f with
  | .ok c => [(f ++ ".parquet", c)]
  | .error _ => []

/-- Number of stderr lines of the form `Processing <f>`. -/
def countProcessing (evs : List Event) : Nat :=
  (stderrLines evs).countP fun s => "Processing ".data.isPrefixOf s.data

/-- Number of stderr lines of the form `Created <p>`. -/
def countCreated (evs : List Event) : Nat :=
  (stderrLines evs).countP fun s => "Created ".data.isPrefixOf s.data

/-- A filesystem state: each path maps to the content stored there, if any. -/
def FS (Content : Type) : Type := String → Option Content

/-- Write `c` at path `p`, overwriting whatever was there. -/
def setFile (fs : FS Content) (p : String) (c : Content) : FS Content :=
  fun q => if q = p then some c else fs q

/-- Apply a list of file creations to a filesystem state, in order, each
overwriting the path it targets. -/
def applyCreations (fs : FS Content) : List (String × Content) → FS Content
  | [] => fs
  | (p, c) :: rest => applyCreations (setFile fs p c) rest

/-- The filesystem state after one run of the program on `argv` starting
from state `fs`. -/
def runProgram (env : Env Store Content Err) (argv : List String)
    (fs : FS Content) : FS Content :=
  applyCreations fs (main env argv).files

/-- The content the last creation in the list leaves at `q`, if any. -/
def lastWrite : List (String × Content) → String → Option Content
  | [], _ => none
  | (p, c) :: rest, q =>
    match lastWrite rest q with
    | some c2 => some c2
    | none => if q = p then some c else none

/-- A concrete environment in which every load and export succeeds, used to
instantiate hypotheses at concrete inputs. -/
def okEnv : Env String String String :=
  { fromFile := fun f => .ok ("store:" ++ f)
    toParquet := fun s p => .ok ("parquet:" ++ s ++ ":" ++ p) }

/-- A concrete environment in which loading `bad.bin` fails with a decode
error and everything else succeeds. -/
def failEnv : Env String String String :=
  { fromFile := fun f =>
      if f = "bad.bin" then .error "decode error" else .ok ("store:" ++ f)
    toParquet := fun s p => .ok ("parquet:" ++ s ++ ":" ++ p) }

/-! ### Trace characterization lemmas -/

/-- When every filename converts successfully, the loop emits the four
`okEvents` per file in order, creates one output file per input, and
finishes successfully. -/
theorem processLoop_allOk (env : Env Store Content Err) (fs : List String)
    (h : ∀ f ∈ fs, convertOk env f = true) :
    processLoop env fs =
      ⟨fs.flatMap okEvents, fs.flatMap (outFiles env), .success⟩ := by
  induction fs with
  | nil => rfl
  | cons f rest ih =>
    have hf : convertOk env f = true := h f (List.mem_cons_self f rest)
    have hrest : ∀ g ∈ rest, convertOk env g = true :=
      fun g hg => h g (List.mem_cons_of_mem f hg)
    cases hload : env.fromFile f with
    | error e => simp [convertOk, convertFile, hload] at hf
    | ok s =>
      cases hexp : env.toParquet s (f ++ ".parquet") with
      | error e => simp [convertOk, convertFile, hload, hexp] at hf
      | ok c =>
        simp [processLoop, hload, hexp, ih hrest, okEvents, outFiles,
          convertFile]

/-- When every filename before `bad` converts successfully and converting
`bad` fails with error `e`, the loop emits the full per-file sequence for
each earlier file, then the partial sequence for `bad`, creates exactly
the earlier files' outputs, and aborts with the uncaught error `e` —
regardless of what follows `bad` in the list. -/
theorem processLoop_firstFail (env : Env Store Content Err)
    (pre : List String) (bad : String) (post : List String) (e : Err)
    (hpre : ∀ f ∈ pre, convertOk env f = true)
    (hbad : convertFile env bad = .error e) :
    processLoop env (pre ++ bad :: post) =
      ⟨pre.flatMap okEvents ++ badEvents env bad,
       pre.flatMap (outFiles env), .uncaught bad e⟩ := by
  induction pre with
  | nil =>
    cases hload : env.fromFile bad with
    | error e2 =>
      have he : e2 = e := by
        simpa [convertFile, hload] using hbad
      subst he
      simp [processLoop, hload, badEvents]
    | ok s =>
      cases hexp : env.toParquet s (bad ++ ".parquet") with
      | error e2 =>
        have he : e2 = e := by
          simpa [convertFile, hload, hexp] using hbad
        subst he
        simp [processLoop, hload, hexp, badEvents]
      | ok c => simp [convertFile, hload, hexp] at hbad
  | cons f rest ih =>
    have hf : convertOk env f = true := hpre f (List.mem_cons_self f rest)
    have hrest : ∀ g ∈ rest, convertOk env g = true :=
      fun g hg => hpre g (List.mem_cons_of_mem f hg)
    cases hload : env.fromFile f with
    | error e2 => simp [convertOk, convertFile, hload] at hf
    | ok s =>
      cases hexp : env.toParquet s (f ++ ".parquet") with
      | error e2 => simp [convertOk, convertFile, hload, hexp] at hf
      | ok c =>
        simp [processLoop, hload, hexp, ih hrest, okEvents, outFiles,
          convertFile]

/-- With at least one filename argument, `main` runs the loop on
`argv[1:]`. -/
theorem main_eq_processLoop (env : Env Store Content Err)
    (argv : List String) (hne : argv.drop 1 ≠ []) :
    main env argv = processLoop env (argv.drop 1) := by
  have hlen : ¬ argv.length < 2 := by
    intro hlt
    apply hne
    apply List.eq_nil_of_length_eq_zero
    have := List.length_drop 1 argv
    omega
  unfold main
  rw [if_neg hlen]

/-! ### Extraction helper lemmas -/

theorem stderrLines_flatMap_okEvents (fs : List String) :
    stderrLines (fs.flatMap okEvents) =
      fs.flatMap (fun f =>
        ["Processing " ++ f ++ "\n",
         "Created " ++ (f ++ ".parquet") ++ "\n"]) := by
  induction fs with
  | nil => rfl
  | cons f rest ih => simp [stderrLines, okEvents] at ih ⊢; exact ih

theorem loadCalls_flatMap_okEvents (fs : List String) :
    loadCalls (fs.flatMap okEvents) = fs := by
  induction fs with
  | nil => rfl
  | cons f rest ih => simp [loadCalls, okEvents] at ih ⊢; exact ih

theorem exportCalls_flatMap_okEvents (fs : List String) :
    exportCalls (fs.flatMap okEvents) = fs.map (fun f => f ++ ".parquet") := by
  induction fs with
  | nil => rfl
  | cons f rest ih => simp [exportCalls, okEvents] at ih ⊢; exact ih

theorem outFiles_map_fst (env : Env Store Content Err) (f : String)
    (h : convertOk env f = true) :
    (outFiles env f).map Prod.fst = [f ++ ".parquet"] := by
  cases hc : convertFile env f with
  | error e => simp [convertOk, hc] at h
  | ok c => simp [outFiles, hc]

theorem flatMap_outFiles_map_fst (env : Env Store Content Err)
    (fs : List String) (h : ∀ f ∈ fs, convertOk env f = true) :
    (fs.flatMap (outFiles env)).map Prod.fst =
      fs.map (fun f => f ++ ".parquet") := by
  induction fs with
  | nil => rfl
  | cons f rest ih =>
    have hf := h f (List.mem_cons_self f rest)
    have hrest : ∀ g ∈ rest, convertOk env g = true :=
      fun g hg => h g (List.mem_cons_of_mem f hg)
    simp only [List.flatMap_cons, List.map_append, List.map_cons,
      ih hrest, outFiles_map_fst env f hf]
    rfl

/-- A load-call event inside the per-file success block names that file. -/
theorem loadCall_mem_okEvents (f g : String)
    (h : Event.loadCall g ∈ okEvents f) : g = f := by
  simp [okEvents] at h
  exact h

/-- A load-call event inside the failure block names the failing file. -/
theorem loadCall_mem_badEvents (env : Env Store Content Err) (f g : String)
    (h : Event.loadCall g ∈ badEvents env f) : g = f := by
  unfold badEvents at h
  split at h
  · simp at h; exact h
  · split at h
    · simp at h; exact h
    · simp at h

/-! ### Line-classification lemmas -/

theorem processing_line_isProcessing (f : String) :
    "Processing ".data.isPrefixOf ("Processing " ++ f ++ "\n").data = true := by
  simp [String.data_append, List.isPrefixOf_iff_prefix]

theorem created_line_isCreated (p : String) :
    "Created ".data.isPrefixOf ("Created " ++ p ++ "\n").data = true := by
  simp [String.data_append, List.isPrefixOf_iff_prefix]

theorem created_line_not_isProcessing (p : String) :
    "Processing ".data.isPrefixOf ("Created " ++ p ++ "\n").data = false := by
  rw [String.data_append, String.data_append]
  rw [show "Processing ".data = 'P' :: "rocessing ".data from rfl,
      show "Created ".data = 'C' :: "reated ".data from rfl]
  simp [List.isPrefixOf]

theorem processing_line_not_isCreated (f : String) :
    "Created ".data.isPrefixOf ("Processing " ++ f ++ "\n").data = false := by
  rw [String.data_append, String.data_append]
  rw [show "Processing ".data = 'P' :: "rocessing ".data from rfl,
      show "Created ".data = 'C' :: "reated ".data from rfl]
  simp [List.isPrefixOf]

theorem stderrLines_okEvents (f : String) :
    stderrLines (okEvents f) =
      ["Processing " ++ f ++ "\n",
       "Created " ++ (f ++ ".parquet") ++ "\n"] := rfl

theorem countProcessing_append (a b : List Event) :
    countProcessing (a ++ b) = countProcessing a + countProcessing b := by
  simp [countProcessing, stderrLines, List.filterMap_append, List.countP_append]

theorem countCreated_append (a b : List Event) :
    countCreated (a ++ b) = countCreated a + countCreated b := by
  simp [countCreated, stderrLines, List.filterMap_append, List.countP_append]

theorem countProcessing_okEvents (f : String) :
    countProcessing (okEvents f) = 1 := by
  simp [countProcessing, stderrLines_okEvents, List.countP_cons,
    processing_line_isProcessing, created_line_not_isProcessing]

theorem countCreated_okEvents (f : String) :
    countCreated (okEvents f) = 1 := by
  simp [countCreated, stderrLines_okEvents, List.countP_cons,
    created_line_isCreated, processing_line_not_isCreated]

theorem countProcessing_flatMap_okEvents (fs : List String) :
    countProcessing (fs.flatMap okEvents) = fs.length := by
  induction fs with
  | nil => rfl
  | cons f rest ih =>
    rw [List.flatMap_cons, countProcessing_append, countProcessing_okEvents,
      ih, List.length_cons]
    omega

theorem countCreated_flatMap_okEvents (fs : List String) :
    countCreated (fs.flatMap okEvents) = fs.length := by
  induction fs with
  | nil => rfl
  | cons f rest ih =>
    rw [List.flatMap_cons, countCreated_append, countCreated_okEvents,
      ih, List.length_cons]
    omega

/-- The failure block for a file whose load fails: the Processing line and
the load call, nothing more. -/
theorem badEvents_loadFail (env : Env Store Content Err) (f : String) (e : Err)
    (hload : env.fromFile f = .error e) :
    badEvents env f =
      [.stderr ("Processing " ++ f ++ "\n"), .loadCall f] := by
  unfold badEvents
  rw [hload]

theorem countProcessing_badEvents_loadFail (env : Env Store Content Err)
    (f : String) (e : Err) (hload : env.fromFile f = .error e) :
    countProcessing (badEvents env f) = 1 := by
  rw [badEvents_loadFail env f e hload]
  simp [countProcessing, stderrLines, List.countP_cons,
    processing_line_isProcessing]

theorem countCreated_badEvents_loadFail (env : Env Store Content Err)
    (f : String) (e : Err) (hload : env.fromFile f = .error e) :
    countCreated (badEvents env f) = 0 := by
  rw [badEvents_loadFail env f e hload]
  simp [countCreated, stderrLines, List.countP_cons,
    processing_line_not_isCreated]

/-- Wherever a load call for `f` appears in the loop's event stream, the
Processing line for `f` appears strictly before it. -/
theorem loadCall_after_processing (env : Env Store Content Err)
    (fs : List String) (f : String)
    (h : Event.loadCall f ∈ (processLoop env fs).events) :
    List.Sublist [Event.stderr ("Processing " ++ f ++ "\n"), Event.loadCall f]
      (processLoop env fs).events := by
  induction fs with
  | nil => simp [processLoop] at h
  | cons g rest ih =>
    cases hload : env.fromFile g with
    | error e =>
      simp only [processLoop, hload] at h ⊢
      simp at h
      subst h
      exact List.Sublist.refl _
    | ok s =>
      cases hexp : env.toParquet s (g ++ ".parquet") with
      | error e =>
        simp only [processLoop, hload, hexp] at h ⊢
        simp at h
        subst h
        exact ((List.nil_sublist _).cons₂ _).cons₂ _
      | ok c =>
        simp only [processLoop, hload, hexp] at h ⊢
        rcases List.mem_append.mp h with h1 | h2
        · simp at h1
          subst h1
          refine List.Sublist.trans ?_ (List.sublist_append_left _ _)
          exact ((List.nil_sublist _).cons₂ _).cons₂ _
        · exact List.Sublist.trans (ih h2) (List.sublist_append_right _ _)

/-- If not every file converts, the filename list splits at the first
failing file. -/
theorem exists_first_failure (env : Env Store Content Err) (fs : List String)
    (h : ¬ ∀ f ∈ fs, convertOk env f = true) :
    ∃ pre bad post e, fs = pre ++ bad :: post ∧
      (∀ f ∈ pre, convertOk env f = true) ∧
      convertFile env bad = .error e := by
  induction fs with
  | nil => simp at h
  | cons f rest ih =>
    by_cases hf : convertOk env f = true
    · have hrest : ¬ ∀ g ∈ rest, convertOk env g = true := by
        intro hall
        apply h
        intro g hg
        rcases List.mem_cons.mp hg with h1 | h2
        · exact h1 ▸ hf
        · exact hall g h2
      obtain ⟨pre, bad, post, e, heq, hpre, hbad⟩ := ih hrest
      refine ⟨f :: pre, bad, post, e, by simp [heq], ?_, hbad⟩
      intro g hg
      rcases List.mem_cons.mp hg with h1 | h2
      · exact h1 ▸ hf
      · exact hpre g h2
    · cases hc : convertFile env f with
      | ok c => exact absurd (by simp [convertOk, hc]) hf
      | error e => exact ⟨[], f, rest, e, rfl, by simp, hc⟩

/-- The loop succeeds exactly when every file converts. -/
theorem processLoop_success_iff (env : Env Store Content Err)
    (fs : List String) :
    (processLoop env fs).outcome = .success ↔
      ∀ f ∈ fs, convertOk env f = true := by
  constructor
  · intro h
    by_contra hno
    obtain ⟨pre, bad, post, e, heq, hpre, hbad⟩ :=
      exists_first_failure env fs hno
    rw [heq, processLoop_firstFail env pre bad post e hpre hbad] at h
    simp at h
  · intro hall
    rw [processLoop_allOk env fs hall]

/-! ### Filesystem lemmas -/

/-- Applying a creation list to a filesystem: at each path, the last
creation targeting it wins; untouched paths keep their old content. -/
theorem applyCreations_eq (fs : FS Content) (cs : List (String × Content))
    (q : String) :
    applyCreations fs cs q =
      match lastWrite cs q with
      | some c => some c
      | none => fs q := by
  induction cs generalizing fs with
  | nil => rfl
  | cons pc rest ih =>
    obtain ⟨p, c⟩ := pc
    rw [applyCreations, ih, lastWrite]
    cases lastWrite rest q with
    | some c2 => rfl
    | none => by_cases hq : q = p <;> simp [setFile, hq]

example : main okEnv ["prog"] =
    ⟨[Event.stderr "Usage: dbn_to_parquet.py <filename>\n"], [], .usageError⟩ := by
  decide

example : (main okEnv ["prog", "a.bin"]).files =
    [("a.bin.parquet", "parquet:store:a.bin:a.bin.parquet")] := by
  decide

example : (main failEnv ["prog", "a.bin", "bad.bin", "c.bin"]).outcome =
    .uncaught "bad.bin" "decode error" := by
  decide

example : loadCalls (main failEnv ["prog", "a.bin", "bad.bin", "c.bin"]).events =
    ["a.bin", "bad.bin"] := by
  decide

/-! ### Claim theorems -/

/-- C1: for every non-empty argument list whose files all convert, the
program processes each filename in argument order, performing per filename
exactly: Processing line to stderr, load call with that filename, export
call with the filename plus ".parquet", Created line to stderr naming the
output file — creating one output file per input, in order. -/
theorem c1_per_file_sequence (env : Env Store Content Err)
    (argv : List String) (hne : argv.drop 1 ≠ [])
    (hok : ∀ f ∈ argv.drop 1, convertOk env f = true) :
    main env argv =
      ⟨(argv.drop 1).flatMap okEvents,
       (argv.drop 1).flatMap (outFiles env), .success⟩ := by
  rw [main_eq_processLoop env argv hne, processLoop_allOk env _ hok]

theorem c1_per_file_sequence_witness :
    main okEnv ["prog", "a.bin", "b.bin"] =
      ⟨(["prog", "a.bin", "b.bin"].drop 1).flatMap okEvents,
       (["prog", "a.bin", "b.bin"].drop 1).flatMap (outFiles okEnv),
       .success⟩ :=
  c1_per_file_sequence okEnv ["prog", "a.bin", "b.bin"]
    (by decide) (by decide)

/-- C2: with zero filename arguments the program writes exactly the usage
line to stderr, exits with status 1, invokes neither external capability,
and creates no file. -/
theorem c2_usage_on_no_args (env : Env Store Content Err)
    (argv : List String) (h : argv.length < 2) :
    main env argv =
      ⟨[Event.stderr "Usage: dbn_to_parquet.py <filename>\n"], [],
       .usageError⟩ ∧
    (main env argv).outcome.exitCode = 1 ∧
    loadCalls (main env argv).events = [] ∧
    exportCalls (main env argv).events = [] ∧
    (main env argv).files = [] := by
  have hm : main env argv =
      ⟨[Event.stderr "Usage: dbn_to_parquet.py <filename>\n"], [],
       .usageError⟩ := by
    unfold main
    rw [if_pos h]
  refine ⟨hm, ?_, ?_, ?_, ?_⟩ <;> rw [hm] <;> rfl

theorem c2_usage_on_no_args_witness :
    main okEnv ["prog"] =
      ⟨[Event.stderr "Usage: dbn_to_parquet.py <filename>\n"], [],
       .usageError⟩ ∧
    (main okEnv ["prog"]).outcome.exitCode = 1 ∧
    loadCalls (main okEnv ["prog"]).events = [] ∧
    exportCalls (main okEnv ["prog"]).events = [] ∧
    (main okEnv ["prog"]).files = [] :=
  c2_usage_on_no_args okEnv ["prog"] (by decide)

/-- C3: when every filename before `bad` converts and `bad` fails, the
run emits the full block for each earlier file then the partial block for
`bad`, creates exactly the earlier outputs, surfaces the failure's error
value unmodified in the outcome, exits nonzero, and never issues a load
call for any later filename. -/
theorem c3_abort_on_first_failure (env : Env Store Content Err)
    (argv pre post : List String) (bad : String) (e : Err)
    (hargv : argv.drop 1 = pre ++ bad :: post)
    (hpre : ∀ f ∈ pre, convertOk env f = true)
    (hbad : convertFile env bad = .error e) :
    main env argv =
      ⟨pre.flatMap okEvents ++ badEvents env bad,
       pre.flatMap (outFiles env), .uncaught bad e⟩ ∧
    (main env argv).files.map Prod.fst =
      pre.map (fun f => f ++ ".parquet") ∧
    (main env argv).outcome.exitCode = 1 ∧
    ∀ g ∈ post, g ∉ pre → g ≠ bad →
      Event.loadCall g ∉ (main env argv).events := by
  have hne : argv.drop 1 ≠ [] := by
    rw [hargv]
    simp
  have hm : main env argv =
      ⟨pre.flatMap okEvents ++ badEvents env bad,
       pre.flatMap (outFiles env), .uncaught bad e⟩ := by
    rw [main_eq_processLoop env argv hne, hargv,
      processLoop_firstFail env pre bad post e hpre hbad]
  refine ⟨hm, ?_, ?_, ?_⟩
  · rw [hm]
    exact flatMap_outFiles_map_fst env pre hpre
  · rw [hm]
    rfl
  · intro g hg hgpre hgbad hmem
    rw [hm] at hmem
    rcases List.mem_append.mp hmem with h1 | h2
    · rcases List.mem_flatMap.mp h1 with ⟨f, hf, hmem2⟩
      apply hgpre
      rw [loadCall_mem_okEvents f g hmem2]
      exact hf
    · exact hgbad (loadCall_mem_badEvents env bad g h2)

theorem c3_abort_on_first_failure_witness :
    (main failEnv ["prog", "a.bin", "bad.bin", "c.bin"] =
      ⟨(["a.bin"]).flatMap okEvents ++ badEvents failEnv "bad.bin",
       (["a.bin"]).flatMap (outFiles failEnv),
       .uncaught "bad.bin" "decode error"⟩ ∧
    (main failEnv ["prog", "a.bin", "bad.bin", "c.bin"]).files.map Prod.fst =
      (["a.bin"]).map (fun f => f ++ ".parquet") ∧
    (main failEnv ["prog", "a.bin", "bad.bin", "c.bin"]).outcome.exitCode
      = 1 ∧
    ∀ g ∈ ["c.bin"], g ∉ ["a.bin"] → g ≠ "bad.bin" →
      Event.loadCall g ∉
        (main failEnv ["prog", "a.bin", "bad.bin", "c.bin"]).events) ∧
    "a.bin.parquet" ∈
      (main failEnv ["prog", "a.bin", "bad.bin", "c.bin"]).files.map
        Prod.fst ∧
    "c.bin.parquet" ∉
      (main failEnv ["prog", "a.bin", "bad.bin", "c.bin"]).files.map
        Prod.fst :=
  ⟨c3_abort_on_first_failure failEnv ["prog", "a.bin", "bad.bin", "c.bin"]
      ["a.bin"] ["c.bin"] "bad.bin" "decode error"
      (by decide) (by decide) (by rfl),
   by decide, by decide⟩

/-- C4: with at least one filename, the exit code is 0 exactly when every
filename converts; when it is nonzero, the run aborted at the first
failing file, whose error is surfaced in the outcome. -/
theorem c4_exit_code (env : Env Store Content Err) (argv : List String)
    (hne : argv.drop 1 ≠ []) :
    ((main env argv).outcome.exitCode = 0 ↔
      ∀ f ∈ argv.drop 1, convertOk env f = true) ∧
    ((main env argv).outcome.exitCode ≠ 0 →
      ∃ pre bad post e, argv.drop 1 = pre ++ bad :: post ∧
        (∀ f ∈ pre, convertOk env f = true) ∧
        convertFile env bad = .error e ∧
        (main env argv).outcome = .uncaught bad e) := by
  rw [main_eq_processLoop env argv hne]
  constructor
  · constructor
    · intro h0
      rw [← processLoop_success_iff]
      cases ho : (processLoop env (argv.drop 1)).outcome with
      | success => rfl
      | usageError =>
        rw [ho] at h0
        simp [Outcome.exitCode] at h0
      | uncaught f e =>
        rw [ho] at h0
        simp [Outcome.exitCode] at h0
    · intro hall
      rw [(processLoop_success_iff env _).mpr hall]
      rfl
  · intro hnz
    have hno : ¬ ∀ f ∈ argv.drop 1, convertOk env f = true := by
      intro hall
      apply hnz
      rw [(processLoop_success_iff env _).mpr hall]
      rfl
    obtain ⟨pre, bad, post, e, heq, hpre, hbad⟩ :=
      exists_first_failure env (argv.drop 1) hno
    refine ⟨pre, bad, post, e, heq, hpre, hbad, ?_⟩
    rw [heq, processLoop_firstFail env pre bad post e hpre hbad]

theorem c4_exit_code_witness :
    ((main failEnv ["prog", "bad.bin"]).outcome.exitCode = 0 ↔
      ∀ f ∈ (["prog", "bad.bin"] : List String).drop 1,
        convertOk failEnv f = true) ∧
    ((main failEnv ["prog", "bad.bin"]).outcome.exitCode ≠ 0 →
      ∃ pre bad post e,
        (["prog", "bad.bin"] : List String).drop 1 =
          pre ++ bad :: post ∧
        (∀ f ∈ pre, convertOk failEnv f = true) ∧
        convertFile failEnv bad = .error e ∧
        (main failEnv ["prog", "bad.bin"]).outcome = .uncaught bad e) :=
  c4_exit_code failEnv ["prog", "bad.bin"] (by decide)

/-- C5: on the argument list `[a.bin, b.bin]` with both inputs valid, both
outputs are created in argument order and the four stderr lines appear in
the interleaved order processing-a, created-a, processing-b, created-b. -/
theorem c5_interleaved (env : Env Store Content Err)
    (ha : convertOk env "a.bin" = true)
    (hb : convertOk env "b.bin" = true) :
    stderrLines (main env ["prog", "a.bin", "b.bin"]).events =
      ["Processing a.bin\n", "Created a.bin.parquet\n",
       "Processing b.bin\n", "Created b.bin.parquet\n"] ∧
    (main env ["prog", "a.bin", "b.bin"]).files.map Prod.fst =
      ["a.bin.parquet", "b.bin.parquet"] := by
  have hok : ∀ f ∈ (["a.bin", "b.bin"] : List String),
      convertOk env f = true := by
    simp [ha, hb]
  have hdrop : (["prog", "a.bin", "b.bin"] : List String).drop 1 =
      ["a.bin", "b.bin"] := rfl
  have hm : main env ["prog", "a.bin", "b.bin"] =
      ⟨(["a.bin", "b.bin"]).flatMap okEvents,
       (["a.bin", "b.bin"]).flatMap (outFiles env), .success⟩ := by
    rw [main_eq_processLoop env _ (by simp), hdrop,
      processLoop_allOk env _ hok]
  rw [hm]
  constructor
  · rw [show (Trace.mk ((["a.bin", "b.bin"]).flatMap okEvents)
        ((["a.bin", "b.bin"]).flatMap (outFiles env))
        (Outcome.success : Outcome Err)).events =
        (["a.bin", "b.bin"]).flatMap okEvents from rfl,
      stderrLines_flatMap_okEvents]
    rfl
  · rw [show (Trace.mk ((["a.bin", "b.bin"]).flatMap okEvents)
        ((["a.bin", "b.bin"]).flatMap (outFiles env))
        (Outcome.success : Outcome Err)).files =
        (["a.bin", "b.bin"]).flatMap (outFiles env) from rfl,
      flatMap_outFiles_map_fst env _ hok]
    rfl

theorem c5_interleaved_witness :
    stderrLines (main okEnv ["prog", "a.bin", "b.bin"]).events =
      ["Processing a.bin\n", "Created a.bin.parquet\n",
       "Processing b.bin\n", "Created b.bin.parquet\n"] ∧
    (main okEnv ["prog", "a.bin", "b.bin"]).files.map Prod.fst =
      ["a.bin.parquet", "b.bin.parquet"] :=
  c5_interleaved okEnv (by decide) (by decide)

/-- C6: for every successfully processed input `f`, exactly two stderr
lines are emitted for `f`: `Processing f` and `Created f.parquet`, the
output name being the input name with ".parquet" appended. -/
theorem c6_two_lines (env : Env Store Content Err) (argv : List String)
    (hne : argv.drop 1 ≠ [])
    (hok : ∀ f ∈ argv.drop 1, convertOk env f = true) :
    stderrLines (main env argv).events =
      (argv.drop 1).flatMap (fun f =>
        ["Processing " ++ f ++ "\n",
         "Created " ++ (f ++ ".parquet") ++ "\n"]) ∧
    (main env argv).files.map Prod.fst =
      (argv.drop 1).map (fun f => f ++ ".parquet") := by
  rw [main_eq_processLoop env argv hne, processLoop_allOk env _ hok]
  exact ⟨stderrLines_flatMap_okEvents _, flatMap_outFiles_map_fst env _ hok⟩

theorem c6_two_lines_witness :
    stderrLines (main okEnv ["prog", "a.bin"]).events =
      ((["prog", "a.bin"] : List String).drop 1).flatMap (fun f =>
        ["Processing " ++ f ++ "\n",
         "Created " ++ (f ++ ".parquet") ++ "\n"]) ∧
    (main okEnv ["prog", "a.bin"]).files.map Prod.fst =
      ((["prog", "a.bin"] : List String).drop 1).map
        (fun f => f ++ ".parquet") :=
  c6_two_lines okEnv ["prog", "a.bin"] (by decide) (by decide)

/-- C7: running the program twice on the same arguments is idempotent on
the filesystem: both runs create the same files at the same paths, so the
second run overwrites the first with the same content. -/
theorem c7_idempotent (env : Env Store Content Err) (argv : List String)
    (fs : FS Content) :
    runProgram env argv (runProgram env argv fs) =
      runProgram env argv fs := by
  funext q
  unfold runProgram
  rw [applyCreations_eq, applyCreations_eq]
  cases h : lastWrite (main env argv).files q with
  | some c => rfl
  | none => rfl

/-- C8: the Processing line for a file always appears strictly before the
load call for it; on a batch aborted by a decode failure the Processing
lines outnumber the Created lines by exactly one. -/
theorem c8_processing_before_load (env : Env Store Content Err)
    (argv pre post : List String) (bad : String) (e : Err)
    (hargv : argv.drop 1 = pre ++ bad :: post)
    (hpre : ∀ f ∈ pre, convertOk env f = true)
    (hbad : env.fromFile bad = .error e) :
    (∀ f, Event.loadCall f ∈ (main env argv).events →
      List.Sublist
        [Event.stderr ("Processing " ++ f ++ "\n"), Event.loadCall f]
        (main env argv).events) ∧
    countProcessing (main env argv).events =
      countCreated (main env argv).events + 1 := by
  have hne : argv.drop 1 ≠ [] := by
    rw [hargv]
    simp
  have hcf : convertFile env bad = .error e := by
    unfold convertFile
    rw [hbad]
  have hev : (main env argv).events =
      pre.flatMap okEvents ++ badEvents env bad := by
    rw [main_eq_processLoop env argv hne, hargv,
      processLoop_firstFail env pre bad post e hpre hcf]
  constructor
  · intro f hf
    rw [main_eq_processLoop env argv hne] at hf ⊢
    exact loadCall_after_processing env _ f hf
  · rw [hev, countProcessing_append, countCreated_append,
      countProcessing_flatMap_okEvents, countCreated_flatMap_okEvents,
      countProcessing_badEvents_loadFail env bad e hbad,
      countCreated_badEvents_loadFail env bad e hbad]

theorem c8_processing_before_load_witness :
    (∀ f, Event.loadCall f ∈
        (main failEnv ["prog", "a.bin", "bad.bin", "c.bin"]).events →
      List.Sublist
        [Event.stderr ("Processing " ++ f ++ "\n"), Event.loadCall f]
        (main failEnv ["prog", "a.bin", "bad.bin", "c.bin"]).events) ∧
    countProcessing
        (main failEnv ["prog", "a.bin", "bad.bin", "c.bin"]).events =
      countCreated
        (main failEnv ["prog", "a.bin", "bad.bin", "c.bin"]).events + 1 :=
  c8_processing_before_load failEnv ["prog", "a.bin", "bad.bin", "c.bin"]
    ["a.bin"] ["c.bin"] "bad.bin" "decode error"
    (by decide) (by decide) (by rfl)

/-- C9: the usage message is exactly the single line
`Usage: dbn_to_parquet.py <filename>` (one placeholder), while the loop
itself processes a filename list of any length. -/
theorem c9_usage_message (env : Env Store Content Err)
    (argv : List String) (h : argv.length < 2) :
    (main env argv).events =
      [Event.stderr "Usage: dbn_to_parquet.py <filename>\n"] ∧
    ∀ fs : List String, (∀ f ∈ fs, convertOk env f = true) →
      loadCalls (processLoop env fs).events = fs := by
  constructor
  · have hm : main env argv =
        ⟨[Event.stderr "Usage: dbn_to_parquet.py <filename>\n"], [],
         .usageError⟩ := by
      unfold main
      rw [if_pos h]
    rw [hm]
  · intro fs hok
    rw [processLoop_allOk env fs hok]
    exact loadCalls_flatMap_okEvents fs

theorem c9_usage_message_witness :
    (main okEnv ["prog"]).events =
      [Event.stderr "Usage: dbn_to_parquet.py <filename>\n"] ∧
    ∀ fs : List String, (∀ f ∈ fs, convertOk okEnv f = true) →
      loadCalls (processLoop okEnv fs).events = fs :=
  c9_usage_message okEnv ["prog"] (by decide)

/-- C10: no option parsing: every argument after the program name,
dashes included, is passed verbatim to the load capability, and the
export capability receives exactly the derived output paths. -/
theorem c10_args_verbatim (env : Env Store Content Err)
    (argv : List String) (hne : argv.drop 1 ≠ [])
    (hok : ∀ f ∈ argv.drop 1, convertOk env f = true) :
    loadCalls (main env argv).events = argv.drop 1 ∧
    exportCalls (main env argv).events =
      (argv.drop 1).map (fun f => f ++ ".parquet") := by
  rw [main_eq_processLoop env argv hne, processLoop_allOk env _ hok]
  exact ⟨loadCalls_flatMap_okEvents _, exportCalls_flatMap_okEvents _⟩

theorem c10_args_verbatim_witness :
    loadCalls (main okEnv ["prog", "--help", "-x"]).events =
      (["prog", "--help", "-x"] : List String).drop 1 ∧
    exportCalls (main okEnv ["prog", "--help", "-x"]).events =
      ((["prog", "--help", "-x"] : List String).drop 1).map
        (fun f => f ++ ".parquet") :=
  c10_args_verbatim okEnv ["prog", "--help", "-x"] (by decide) (by decide)

end DbnToParquet
